import Mathlib

/-!
Verification of the shipit job-coordination system (AOSC-Dev/shipit).

The development shallowly embeds the Rust sources:
  * `src/src/db.rs`     — the Redis-backed job registry (`Db`),
  * `src/src/bot.rs`    — the enqueue / status command handlers (`answer`),
  * `src/src/main.rs`   — the worker-facing HTTP handlers
                          (`build_is_started`, `build_done`),
  * `src/worker/src/main.rs` — the worker agent loop, `build_release`
                          and the retrying uploader `run_logged_with_retry`.

Machine integers (the i64 chat/requester id) are embedded as `Int`;
strings as Lean `String`; the Redis keyspace as an association list from
key to a JSON value, mirroring that Redis stores the serde_json
serialisation of `Build` under key `shipit:{arch}`.
-/

namespace Shipit

/-- The build kind stored in a job record (`enum BuildType` in db.rs):
`Livekit` has no payload, `Release` carries an ordered list of variant
tags. -/
inductive BuildType where
  | Livekit : BuildType
  | Release : List String → BuildType
deriving DecidableEq, Repr

/-- A job record (`struct Build` in db.rs): requester chat id (i64),
target architecture (also the registry key), and the build kind. -/
structure Build where
  id : Int
  arch : String
  build_type : BuildType
deriving DecidableEq, Repr

/-- The known architecture set (`const ARCHS` in main.rs). -/
def ARCHS : List String :=
  ["amd64", "arm64", "loongarch64", "ppc64el", "loongson3", "riscv64"]

/-- `impl Display for BuildType` in db.rs, used by the status report. -/
def BuildType.display : BuildType → String
  | .Livekit => "livekit"
  | .Release v => "release variant: " ++ String.intercalate " " v

/-- A JSON value, covering the fragment serde_json produces for `Build`
(numbers restricted to the i64 id). -/
inductive Json where
  | null : Json
  | str : String → Json
  | num : Int → Json
  | arr : List Json → Json
  | obj : List (String × Json) → Json

/-- serde serialisation of `BuildType`: a unit variant serialises as its
name, a newtype variant as a one-field object. -/
def BuildType.toJson : BuildType → Json
  | .Livekit => .str "Livekit"
  | .Release v => .obj [("Release", .arr (v.map .str))]

/-- Decode a JSON array of strings (the `Release` payload). -/
def decodeStrList : List Json → Option (List String)
  | [] => some []
  | .str s :: rest => (decodeStrList rest).map (s :: ·)
  | _ => none

/-- serde deserialisation of `BuildType` (inverse of `BuildType.toJson`
on well-formed input). -/
def BuildType.fromJson : Json → Option BuildType
  | .str s => if s = "Livekit" then some .Livekit else none
  | .obj [("Release", .arr xs)] => (decodeStrList xs).map .Release
  | _ => none

/-- serde serialisation of `Build`: fields in declaration order. -/
def Build.toJson (b : Build) : Json :=
  .obj [("id", .num b.id), ("arch", .str b.arch),
        ("build_type", b.build_type.toJson)]

/-- serde deserialisation of `Build`. -/
def Build.fromJson : Json → Option Build
  | .obj [("id", .num i), ("arch", .str a), ("build_type", bt)] =>
      (BuildType.fromJson bt).map (fun t => ⟨i, a, t⟩)
  | _ => none

/-- The Redis keyspace: an association list from key to stored JSON
value.  Redis keys are unique; `kvSet` maintains this by removing the
key before re-inserting. -/
def Store := List (String × Json)

/-- Redis `GET key`: first binding of the key, if any. -/
def kvGet : Store → String → Option Json
  | [], _ => none
  | (k, v) :: rest, key => if key = k then some v else kvGet rest key

/-- Redis `DEL key`. -/
def kvDel : Store → String → Store
  | [], _ => []
  | (k, v) :: rest, key =>
      if k = key then kvDel rest key else (k, v) :: kvDel rest key

/-- Redis `SET key value` (overwrites any previous value of the key). -/
def kvSet (s : Store) (key : String) (v : Json) : Store :=
  (key, v) :: kvDel s key

/-- `Db::get` (db.rs): `GET shipit:{arch}` then `serde_json::from_str`.
`none` both when the key is absent and when the stored value does not
parse — exactly the cases in which the Rust `get` returns `Err`. -/
def Db.get (s : Store) (arch : String) : Option Build :=
  (kvGet s ("shipit:" ++ arch)).bind Build.fromJson

/-- `Db::set_building` (db.rs): `SET shipit:{arch}` to the
serialisation of the record. -/
def Db.set_building (s : Store) (arch : String) (b : Build) : Store :=
  kvSet s ("shipit:" ++ arch) b.toJson

/-- `Db::set_build_done` (db.rs): `DEL shipit:{arch}`.  Redis `DEL` on
an absent key is not an error, so this is total. -/
def Db.set_build_done (s : Store) (arch : String) : Store :=
  kvDel s ("shipit:" ++ arch)

/-- The `for i in s { … v.push(...) }` loop of `Db::running_worker`:
parse each stored value in key order, aborting on the first parse
failure. -/
def collectBuilds : List (String × Json) → Option (List Build)
  | [] => some []
  | p :: rest =>
    match Build.fromJson p.2 with
    | none => none
    | some b => (collectBuilds rest).map (b :: ·)

/-- `Db::running_worker` (db.rs): `KEYS shipit:*`, then `GET` and parse
each one; any parse failure fails the whole call. -/
def Db.running_worker (s : Store) : Option (List Build) :=
  collectBuilds (s.filter (fun p => p.1.take 7 = "shipit:"))

/- ---------------------------------------------------------------
Enqueue command handlers (bot.rs, `answer`: `Livekit` and `Release`
arms).  Both arms run the same per-architecture loop under the single
`Mutex<Db>`: skip (with a message) an arch not in `ARCHS`; if
`db.get(arch)` succeeds, send "Another build task is running." and
`return` (aborting the rest of the batch); otherwise `set_building`
a fresh record and continue.
--------------------------------------------------------------- -/

/-- One observable outcome of the enqueue loop, in emission order:
the "Unknown arch" message, the "Another build task is running."
message (always last, the loop returns), or the "Building …" message
after a successful record creation. -/
inductive EnqEvent where
  | unknownArch : String → EnqEvent
  | alreadyBuilding : EnqEvent
  | created : String → EnqEvent
deriving DecidableEq, Repr

/-- The per-architecture enqueue loop shared by the `Livekit` and
`Release` arms of `answer` (bot.rs).  `chatId` is `msg.chat.id.0`, `bt`
the build kind stored in every created record.  Returns the final store
and the messages sent, in order. -/
def enqueueBatch (chatId : Int) (bt : BuildType) :
    Store → List String → Store × List EnqEvent
  | s, [] => (s, [])
  | s, a :: rest =>
    if a ∉ ARCHS then
      let r := enqueueBatch chatId bt s rest
      (r.1, .unknownArch a :: r.2)
    else if (Db.get s a).isSome then
      (s, [.alreadyBuilding])
    else
      let r := enqueueBatch chatId bt (Db.set_building s a ⟨chatId, a, bt⟩) rest
      (r.1, .created a :: r.2)

/-- ASCII whitespace, as recognised by Rust's
`str::split_ascii_whitespace` (and, on the ASCII inputs that reach the
bot, by `str::trim`). -/
def isAsciiWs (c : Char) : Bool :=
  c = ' ' || c = '\t' || c = '\n' || c = '\r' || Char.ofNat 12 = c

/-- Helper of `splitAsciiWhitespace`: `acc` holds the current word,
reversed. -/
def splitWsAux : List Char → List Char → List String
  | [], acc => if acc.isEmpty then [] else [String.mk acc.reverse]
  | c :: cs, acc =>
    if isAsciiWs c then
      if acc.isEmpty then splitWsAux cs []
      else String.mk acc.reverse :: splitWsAux cs []
    else splitWsAux cs (c :: acc)

/-- Rust `str::split_ascii_whitespace().collect()`: the maximal
non-whitespace words, in order (no empty words). -/
def splitAsciiWhitespace (s : String) : List String :=
  splitWsAux s.data []

/-- Rust `str::trim` (ASCII fragment): strip leading and trailing
whitespace. -/
def strTrim (s : String) : String :=
  String.mk (((s.data.dropWhile isAsciiWs).reverse.dropWhile isAsciiWs).reverse)

/-- Helper of `splitOnceSemi`: scan for the first `;`. -/
def splitOnceAux : List Char → List Char → Option (String × String)
  | [], _ => none
  | c :: cs, acc =>
    if c = ';' then some (String.mk acc.reverse, String.mk cs)
    else splitOnceAux cs (c :: acc)

/-- Rust `str::split_once(';')`: split at the first `;`, if any. -/
def splitOnceSemi (s : String) : Option (String × String) :=
  splitOnceAux s.data []

/-- Argument parsing of the `Release` arm (bot.rs): with a `;`, the
variants are the whitespace-words before it and the archs the words
after it; without one, the whole argument is the variant list and the
archs default to all of `ARCHS`. -/
def parseReleaseArgs (args : String) : List String × List String :=
  match splitOnceSemi args with
  | some (x, y) => (splitAsciiWhitespace (strTrim x),
                    splitAsciiWhitespace (strTrim y))
  | none => (splitAsciiWhitespace (strTrim args), ARCHS)

/-- The full `Release` arm of `answer` (bot.rs): parse the arguments,
then run the enqueue loop with `BuildType.Release variants` (the
`variants.iter().map(to_string)` in the source is the identity on the
parsed word list, preserving order). -/
def releaseCommand (chatId : Int) (args : String) (s : Store) :
    Store × List EnqEvent :=
  let p := parseReleaseArgs args
  enqueueBatch chatId (.Release p.1) s p.2

/-- Argument parsing of the `Livekit` arm (bot.rs): empty argument
means all of `ARCHS`, otherwise the whitespace-words of the argument. -/
def parseLivekitArgs (args : String) : List String :=
  if args = "" then ARCHS else splitAsciiWhitespace (strTrim args)

/-- The `Livekit` arm of `answer` (bot.rs), after the login check. -/
def livekitCommand (chatId : Int) (args : String) (s : Store) :
    Store × List EnqEvent :=
  enqueueBatch chatId .Livekit s (parseLivekitArgs args)

/- ---------------------------------------------------------------
Status report (bot.rs, `answer`: `Status` arm).
--------------------------------------------------------------- -/

/-- One line of the status report (bot.rs `Status` arm):
`format!("{}: building {}\n", b.arch, b.build_type)`. -/
def statusLine (b : Build) : String :=
  b.arch ++ ": building " ++ b.build_type.display ++ "\n"

/-- The `Status` arm of `answer` (bot.rs): starting from the empty
string, append one `statusLine` per record returned by
`running_worker`. -/
def statusOutput (builds : List Build) : String :=
  builds.foldl (fun res b => res ++ statusLine b) ""

/-- `containsSub hay needle` holds iff `needle` occurs contiguously in
`hay` (used to state what the status output does and does not
mention). -/
def containsSub (hay needle : String) : Bool :=
  (List.range (hay.data.length + 1)).any
    (fun i => needle.data = (hay.data.drop i).take needle.data.length)

/- ---------------------------------------------------------------
Worker-facing HTTP handlers (src/src/main.rs):
`build_is_started` (GET /workerisstarted) and `build_done`
(POST /done).
--------------------------------------------------------------- -/

/-- `enum BuildRequestError` (main.rs); the `Teloxide` variant is not
reachable in the modelled handlers before a notification attempt. -/
inductive BuildRequestError where
  | Redis : BuildRequestError
  | BadSecret : BuildRequestError
deriving DecidableEq, Repr

/-- `impl IntoResponse for BuildRequestError` (main.rs): status code
and body.  `BadSecret` renders as `400 Bad Request` with the fixed
snafu display string `"Bad secret."`. -/
def intoResponse : BuildRequestError → Nat × String
  | .Redis => (500, "Failed to mod redis database.")
  | .BadSecret => (400, "Bad secret.")

/-- The poll response (`enum Status` in main.rs). -/
inductive PollStatus where
  | Working : Build → PollStatus
  | Pending : PollStatus
deriving DecidableEq, Repr

/-- The secret check shared by both handlers (main.rs):
`header.get("secret").map(|x| *x == secret).unwrap_or(false)`. -/
def secretOk (secretHeader : Option String) (secret : String) : Bool :=
  (secretHeader.map (fun x => x == secret)).getD false

/-- `build_is_started` (main.rs): check the secret, then
`db.get(arch)`; `Ok` maps to `Working`, any `Err` to `Pending`.
Returns the handler result together with the (unchanged) store. -/
def build_is_started (secretHeader : Option String) (secret : String)
    (s : Store) (arch : String) :
    Except BuildRequestError PollStatus × Store :=
  if !secretOk secretHeader secret then (.error .BadSecret, s)
  else
    match Db.get s arch with
    | some b => (.ok (.Working b), s)
    | none => (.ok .Pending, s)

/-- `struct BuildDoneRequest` (main.rs): the POST /done body. -/
structure BuildDoneRequest where
  id : Int
  arch : String
  build_type_name : String
  build_type_variants : Option (List String)
  has_error : Bool
  log_url : Option String
  push_success : Bool
  date : String
deriving DecidableEq, Repr

/-- The notification text `build_done` sends to chat `request.id`
(main.rs): `"Build {}{} {}: {}\nlog url: {}\nPush success: {}"`. -/
def doneMessage (r : BuildDoneRequest) : String :=
  "Build " ++ r.build_type_name
    ++ (match r.build_type_variants with
        | some v => " (" ++ String.intercalate " " v ++ ")"
        | none => "")
    ++ " " ++ (if !r.has_error then "success" else "has error")
    ++ ": " ++ r.arch
    ++ "\nlog url: "
    ++ (match r.log_url with
        | some url => url
        | none => "Failed to push log")
    ++ "\nPush success: " ++ (if r.push_success then "true" else "false")

/-- `build_done` (main.rs): check the secret; call `set_build_done`
(whose Redis `DEL` fails only when the connection is down, modelled by
`redisOk`), propagating a failure as `Redis` *before* any message is
sent; then send the completion notification to chat `request.id`.
Returns (handler result, final store, notifications sent in order). -/
def build_done (redisOk : Bool) (secretHeader : Option String)
    (secret : String) (s : Store) (request : BuildDoneRequest) :
    Except BuildRequestError Unit × Store × List (Int × String) :=
  if !secretOk secretHeader secret then (.error .BadSecret, s, [])
  else if !redisOk then (.error .Redis, s, [])
  else (.ok (), Db.set_build_done s request.arch,
        [(request.id, doneMessage request)])

/- ---------------------------------------------------------------
Worker agent (src/worker/src/main.rs): the retrying uploader and the
build/report pipeline.
--------------------------------------------------------------- -/

/-- The result of one subprocess that was successfully spawned
(`std::process::Output`): exit status and captured streams. -/
structure Output where
  statusSuccess : Bool
  stdout : String
  stderr : String
deriving DecidableEq, Repr

/-- The log line `get_output_logged` writes before running a command
(the timestamp and working directory are elided from the model). -/
def runMsg (cmd : String) (args : List String) : String :=
  "Running " ++ cmd ++ " " ++ String.intercalate " " args

/-- The log line recording a command's exit status. -/
def finishMsg (cmd : String) (args : List String) (ok : Bool) : String :=
  cmd ++ " " ++ String.intercalate " " args ++ " finished with "
    ++ (if ok then "exit 0" else "non-zero exit")

/-- `get_output_logged` (worker main.rs) over the outcome `res` of the
spawned process: append the "Running …" line, then — when the spawn
succeeded — the finish line and the captured stdout / stderr; a spawn
failure is propagated as `Err` after only the "Running …" line.  The
log buffer corresponds to the `&mut Vec<u8>` the Rust function extends
in place. -/
def get_output_logged (res : Except Unit Output) (cmd : String)
    (args : List String) (logs : List String) :
    Except Unit Output × List String :=
  let logs := logs ++ [runMsg cmd args]
  match res with
  | .error e => (.error e, logs)
  | .ok o =>
      (.ok o, logs ++ [finishMsg cmd args o.statusSuccess,
                       "STDOUT:", o.stdout, "STDERR:", o.stderr])

/-- Whether an attempt counts as delivered for the retry loop: the
spawn succeeded and the exit status was 0 (`output.status.success()`). -/
def attemptSucceeded : Except Unit Output → Bool
  | .ok o => o.statusSuccess
  | .error _ => false

/-- Observable result of `run_logged_with_retry`: whether the command
eventually succeeded, how many attempts ran, the sleeps performed (in
seconds, in order), and the final log buffer. -/
structure RetryResult where
  delivered : Bool
  attempts : Nat
  sleeps : List Nat
  logs : List String
deriving DecidableEq, Repr

/-- The `for i in 0..5` loop of `run_logged_with_retry` (worker
main.rs), with `fuel` iterations remaining and `i` the current loop
index; `f i` is the outcome of the process spawned on attempt `i`.
A successful attempt returns at once; any other outcome (non-zero exit
or spawn error) is logged, the loop sleeps `1 << i` seconds and
continues; when the loop ends the function returns `false` (`Ok` on
every path — attempt errors are caught by its `match`). -/
def retryLoop (f : Nat → Except Unit Output) (cmd : String)
    (args : List String) : Nat → Nat → List String → RetryResult
  | _, 0, logs => ⟨false, 0, [], logs⟩
  | i, fuel + 1, logs =>
    match get_output_logged (f i) cmd args logs with
    | (.ok o, logs) =>
      if o.statusSuccess then ⟨true, 1, [], logs⟩
      else
        let r := retryLoop f cmd args (i + 1) fuel logs
        ⟨r.delivered, r.attempts + 1, 2 ^ i :: r.sleeps, r.logs⟩
    | (.error _, logs) =>
      let r := retryLoop f cmd args (i + 1) fuel logs
      ⟨r.delivered, r.attempts + 1, 2 ^ i :: r.sleeps, r.logs⟩

/-- `run_logged_with_retry` (worker main.rs): five attempts starting
at `i = 0`, threading the caller's log buffer. -/
def run_logged_with_retry (f : Nat → Except Unit Output) (cmd : String)
    (args : List String) (logs : List String) : RetryResult :=
  retryLoop f cmd args 0 5 logs

/- ---------------------------------------------------------------
`build_release` and the reporting part of `worker`
(src/worker/src/main.rs).  Subprocess and filesystem outcomes are
oracles supplied through an environment record; everything else is
translated from the source.
--------------------------------------------------------------- -/

/-- The subprocess outcomes `build_release` consumes, in program
order: the optional `git clone`, the `git pull`, the
`bash ./contrib/generate-releases.sh <variants…>` executor run, and the
per-attempt outcomes of the retried artifact `scp`. -/
structure ReleaseEnv where
  cloneNeeded : Bool
  gitClone : Except Unit Output
  gitPull : Except Unit Output
  generateReleases : Except Unit Output
  scpImage : Nat → Except Unit Output

/-- `build_release` (worker main.rs): clone/pull `aoscbootstrap`,
remove a stale `os-{arch}` directory (a pure filesystem step with no
observable effect in the model), run the release executor — whose
non-zero exit is *not* an error, only `success = false` — then upload
`os-{arch}` with `run_logged_with_retry`.  Returns
`Ok (logs, success, push_success)`; `Err` only on a spawn failure. -/
def build_release (env : ReleaseEnv) (arch host upload_ssh_key : String)
    (variants : List String) :
    Except Unit (List String × Bool × Bool) :=
  let logs : List String := []
  let step1 : Except Unit (List String) :=
    if env.cloneNeeded then
      match get_output_logged env.gitClone "git"
          ["clone", "https://github.com/AOSC-Dev/aoscbootstrap"] logs with
      | (.error e, _) => .error e
      | (.ok _, logs) => .ok logs
    else .ok logs
  match step1 with
  | .error e => .error e
  | .ok logs =>
    match get_output_logged env.gitPull "git" ["pull"] logs with
    | (.error e, _) => .error e
    | (.ok _, logs) =>
      match get_output_logged env.generateReleases "bash"
          ("./contrib/generate-releases.sh" :: variants) logs with
      | (.error e, _) => .error e
      | (.ok general_release, logs) =>
        let success := general_release.statusSuccess
        let r := run_logged_with_retry env.scpImage "scp"
          ["-i", upload_ssh_key, "-r", "os-" ++ arch,
           "maintainers@" ++ host ++ ":/lookaside/private/aosc-os"] logs
        .ok (r.logs, success, r.delivered)

/-- The request body the worker posts to `/done`
(`struct DoneRequest`, worker main.rs). -/
structure BuildTypeRequest where
  name : String
  variants : Option (List String)
deriving DecidableEq, Repr

/-- `impl From<BuildType> for BuildTypeRequest` (worker main.rs). -/
def BuildTypeRequest.ofBuildType : BuildType → BuildTypeRequest
  | .Livekit => ⟨"livekit", none⟩
  | .Release v => ⟨"release", some v⟩

/-- `struct DoneRequest` (worker main.rs). -/
structure DoneRequest where
  id : Int
  arch : String
  build_type : BuildTypeRequest
  has_error : Bool
  log_url : Option String
  push_success : Bool
deriving DecidableEq, Repr

/-- Environment of one `worker` iteration: the parsed poll response
and the outcomes of every fallible external step it may perform. -/
structure WorkerEnv where
  pollResult : PollStatus
  release : ReleaseEnv
  livekitResult : Except Unit (List String × Bool × Bool)
  fsWriteOk : Bool
  scpLog : Nat → Except Unit Output
  fsRemoveOk : Bool
  fsCopyOk : Bool
  postOk : Bool

/-- The observable effects of one `worker` iteration: the log file
written (name and contents) and the `/done` request posted, if the
iteration got that far. -/
structure WorkerEffects where
  writtenLog : Option (String × List String)
  posted : Option DoneRequest
deriving DecidableEq, Repr

/-- One iteration of `worker` (worker main.rs) after a successful
poll-response parse.  `build_livekit` is an oracle
(`env.livekitResult`); `build_release` is the model above.  The
iteration: run the build (a spawn failure aborts with `?`), write the
log buffer to `shipit-{arch}-{host}-{timestamp}.txt`, upload the log
with `run_logged_with_retry` (on success delete the local copy and set
`log_url`; otherwise keep a fallback copy under `push_failed_logs`),
then POST the `DoneRequest` with `has_error = !success`. -/
def worker (env : WorkerEnv) (arch hostName timeStamp host upload_ssh_key : String) :
    Except Unit WorkerEffects :=
  match env.pollResult with
  | .Pending => .ok ⟨none, none⟩
  | .Working build =>
    let buildRes : Except Unit (List String × Bool × Bool) :=
      match build.build_type with
      | .Livekit => env.livekitResult
      | .Release variants =>
          build_release env.release arch host upload_ssh_key variants
    match buildRes with
    | .error e => .error e
    | .ok (logs, success, push_success) =>
      let file_name :=
        "shipit-" ++ arch ++ "-" ++ hostName ++ "-" ++ timeStamp ++ ".txt"
      if !env.fsWriteOk then .error () else
      let scpRes := run_logged_with_retry env.scpLog "scp"
        ["-i", upload_ssh_key, "./log",
         "maintainers@" ++ host ++ ":/buildit/logs"] []
      let log_url :=
        if scpRes.delivered
        then some ("https://buildit.aosc.io/logs/" ++ file_name)
        else none
      if scpRes.delivered && !env.fsRemoveOk then .error () else
      if !scpRes.delivered && !env.fsCopyOk then .error () else
      if !env.postOk then .error () else
      .ok ⟨some (file_name, logs),
           some ⟨build.id, build.arch,
                 BuildTypeRequest.ofBuildType build.build_type,
                 !success, log_url, push_success⟩⟩

/-- A concrete worker environment: the poll assigns a `Release ["base"]`
build for amd64, the executor exits non-zero (`statusSuccess = false`)
with output `"go"` / `"ge"`, and every other external step succeeds. -/
def workerEnvEx : WorkerEnv where
  pollResult := .Working ⟨5, "amd64", .Release ["base"]⟩
  release :=
    ⟨false, .error (), .ok ⟨true, "po", "pe"⟩, .ok ⟨false, "go", "ge"⟩,
     fun _ => .ok ⟨true, "so", "se"⟩⟩
  livekitResult := .error ()
  fsWriteOk := true
  scpLog := fun _ => .ok ⟨true, "lo", "le"⟩
  fsRemoveOk := true
  fsCopyOk := true
  postOk := true

/- ---------------------------------------------------------------
Concurrency model of two simultaneous enqueue attempts for the same
architecture (bot.rs).  Every registry access in the source goes
through the single `Mutex<Db>` in `AppState`: each enqueue handler
acquires the mutex, runs `db.get(arch)` and — only when that fails —
`db.set_building(arch, …)`, all before releasing.  The model makes the
lock explicit and lets a scheduler interleave two such tasks freely;
the `get` and the `set` remain separate atomic actions, exactly as the
two separate Redis commands in the source.
--------------------------------------------------------------- -/

/-- Program counter of one enqueue task: not yet holding the mutex;
holding it, about to run `db.get`; saw an existing record (will answer
"Another build task is running."); saw no record (will run
`set_building`); finished, the flag recording whether it created the
record. -/
inductive Pc where
  | start : Pc
  | locked : Pc
  | gotBusy : Pc
  | gotIdle : Pc
  | released : Bool → Pc
deriving DecidableEq, Repr

/-- Global state of the two-task system: the shared Redis store, the
mutex owner, and both program counters. -/
structure CState where
  store : Store
  lock : Option (Fin 2)
  pc : Fin 2 → Pc

/-- Interleaving semantics of the two enqueue tasks for architecture
`arch`; `mk i` is the record task `i` would store (its chat id and
build kind).  `acquire` takes the free mutex; `check` runs `db.get`
under the mutex; `fail` answers and releases when a record was found;
`createRecord` runs `set_building` and releases when none was. -/
inductive EnqStep (arch : String) (mk : Fin 2 → Build) :
    CState → CState → Prop where
  | acquire (s : CState) (i : Fin 2) :
      s.pc i = .start → s.lock = none →
      EnqStep arch mk s
        ⟨s.store, some i, Function.update s.pc i .locked⟩
  | check (s : CState) (i : Fin 2) :
      s.pc i = .locked → s.lock = some i →
      EnqStep arch mk s
        ⟨s.store, s.lock, Function.update s.pc i
          (if (Db.get s.store arch).isSome then .gotBusy else .gotIdle)⟩
  | fail (s : CState) (i : Fin 2) :
      s.pc i = .gotBusy → s.lock = some i →
      EnqStep arch mk s
        ⟨s.store, none, Function.update s.pc i (.released false)⟩
  | createRecord (s : CState) (i : Fin 2) :
      s.pc i = .gotIdle → s.lock = some i →
      EnqStep arch mk s
        ⟨Db.set_building s.store arch (mk i), none,
          Function.update s.pc i (.released true)⟩

/-- Initial state: some store, mutex free, both tasks yet to start. -/
def initState (s0 : Store) : CState :=
  ⟨s0, none, fun _ => .start⟩

/-- The inductive invariant of the two-task system: a task between
acquire and release owns the mutex; a task that saw "idle" still sees
no record (nobody else can write while it holds the mutex); after a
task created its record the record is in the store; the two tasks
never both succeed; and the store keys stay duplicate-free. -/
def EnqInv (arch : String) (mk : Fin 2 → Build) (s : CState) : Prop :=
  (∀ i, s.pc i = .locked ∨ s.pc i = .gotBusy ∨ s.pc i = .gotIdle →
     s.lock = some i)
  ∧ (∀ i, s.pc i = .gotIdle → Db.get s.store arch = none)
  ∧ (∀ i, s.pc i = .released true → Db.get s.store arch = some (mk i))
  ∧ ¬(s.pc 0 = .released true ∧ s.pc 1 = .released true)
  ∧ ((s.store.map Prod.fst).Nodup)

/- ===============================================================
Theorems.
=============================================================== -/

/- Basic facts about the store and serialisation. -/

theorem shipit_key_inj {a b : String}
    (h : ("shipit:" ++ a : String) = "shipit:" ++ b) : a = b := by
  have hd := congrArg String.data h
  rw [String.data_append, String.data_append] at hd
  exact String.ext (List.append_cancel_left hd)

theorem kvGet_kvDel (s : Store) (k key : String) :
    kvGet (kvDel s k) key = if key = k then none else kvGet s key := by
  induction s with
  | nil => simp only [kvDel, kvGet]; split <;> rfl
  | cons p rest ih =>
    rcases p with ⟨pk, pv⟩
    by_cases hk : pk = k
    · subst hk
      rw [show kvDel ((pk, pv) :: rest) pk = kvDel rest pk by
        simp [kvDel]]
      rw [ih]
      by_cases hkey : key = pk
      · simp [hkey]
      · simp [hkey, kvGet]
    · rw [show kvDel ((pk, pv) :: rest) k = (pk, pv) :: kvDel rest k by
        simp [kvDel, hk]]
      by_cases hkey : key = pk
      · subst hkey
        simp [kvGet, hk]
      · simp [kvGet, hkey, ih]

theorem kvGet_kvSet_same (s : Store) (k : String) (v : Json) :
    kvGet (kvSet s k v) k = some v := by
  simp [kvSet, kvGet]

theorem kvGet_kvSet_other (s : Store) (k k' : String) (v : Json)
    (h : k' ≠ k) : kvGet (kvSet s k v) k' = kvGet s k' := by
  simp [kvSet, kvGet, h, kvGet_kvDel]

theorem decodeStrList_map_str (v : List String) :
    decodeStrList (v.map .str) = some v := by
  induction v with
  | nil => rfl
  | cons x xs ih => simp [decodeStrList, ih]

theorem buildType_fromJson_roundtrip (t : BuildType) :
    BuildType.fromJson t.toJson = some t := by
  cases t with
  | Livekit => rfl
  | Release v => simp [BuildType.toJson, BuildType.fromJson,
      decodeStrList_map_str]

theorem build_fromJson_roundtrip (b : Build) :
    Build.fromJson b.toJson = some b := by
  cases b with
  | mk i a t =>
    simp [Build.toJson, Build.fromJson, buildType_fromJson_roundtrip]

theorem Db.get_set_building_same (s : Store) (arch : String) (b : Build) :
    Db.get (Db.set_building s arch b) arch = some b := by
  simp [Db.get, Db.set_building, kvGet_kvSet_same, build_fromJson_roundtrip]

theorem Db.get_set_building_other (s : Store) (arch arch' : String)
    (b : Build) (h : arch' ≠ arch) :
    Db.get (Db.set_building s arch b) arch' = Db.get s arch' := by
  unfold Db.get Db.set_building
  rw [kvGet_kvSet_other]
  exact fun hc => h (shipit_key_inj hc)

theorem Db.get_set_build_done_same (s : Store) (arch : String) :
    Db.get (Db.set_build_done s arch) arch = none := by
  unfold Db.get Db.set_build_done
  rw [kvGet_kvDel]
  simp

theorem kvDel_kvDel (s : Store) (k : String) :
    kvDel (kvDel s k) k = kvDel s k := by
  induction s with
  | nil => rfl
  | cons p rest ih =>
    rcases p with ⟨pk, pv⟩
    by_cases hk : pk = k
    · simp [kvDel, hk, ih]
    · simp [kvDel, hk, ih]

theorem kvDel_sublist (s : Store) (k : String) :
    List.Sublist (kvDel s k) s := by
  induction s with
  | nil => exact List.Sublist.refl _
  | cons p rest ih =>
    rcases p with ⟨pk, pv⟩
    by_cases hk : pk = k
    · simp only [kvDel, hk, if_pos rfl]
      exact ih.cons _
    · simp only [kvDel, hk, if_neg hk]
      exact ih.cons₂ _

theorem not_mem_keys_kvDel (s : Store) (k : String) :
    k ∉ (kvDel s k).map Prod.fst := by
  induction s with
  | nil => simp [kvDel]
  | cons p rest ih =>
    rcases p with ⟨pk, pv⟩
    by_cases hk : pk = k
    · simpa [kvDel, hk] using ih
    · simp only [kvDel, if_neg hk, List.map_cons, List.mem_cons]
      intro hmem
      rcases hmem with h1 | h1
      · exact hk h1.symm
      · exact ih h1

theorem nodup_keys_kvSet (s : Store) (k : String) (v : Json)
    (h : (s.map Prod.fst).Nodup) :
    ((kvSet s k v).map Prod.fst).Nodup := by
  refine List.Nodup.cons (not_mem_keys_kvDel s k) ?_
  exact List.Nodup.sublist ((kvDel_sublist s k).map Prod.fst) h

/- The inductive invariant of the two-enqueue-task system (C1). -/

theorem enqInv_init (arch : String) (mk : Fin 2 → Build) (s0 : Store)
    (hnd : (s0.map Prod.fst).Nodup) : EnqInv arch mk (initState s0) := by
  refine ⟨?_, ?_, ?_, ?_, hnd⟩
  · intro i h
    rcases h with h | h | h <;> simp [initState] at h
  · intro i h
    simp [initState] at h
  · intro i h
    simp [initState] at h
  · rintro ⟨h, _⟩
    simp [initState] at h

theorem enqInv_step (arch : String) (mk : Fin 2 → Build) {s s' : CState}
    (hstep : EnqStep arch mk s s') (hinv : EnqInv arch mk s) :
    EnqInv arch mk s' := by
  obtain ⟨h1, h2, h3, h4, h5⟩ := hinv
  cases hstep with
  | acquire i hpc hlock =>
    refine ⟨?_, ?_, ?_, ?_, h5⟩
    · intro j hj
      by_cases hji : j = i
      · subst hji; rfl
      · rw [show (⟨s.store, some i, Function.update s.pc i .locked⟩ :
              CState).pc j = Function.update s.pc i Pc.locked j from rfl,
            Function.update_noteq hji] at hj
        have := h1 j hj
        rw [hlock] at this
        cases this
    · intro j hj
      by_cases hji : j = i
      · subst hji
        rw [show (⟨s.store, some j, Function.update s.pc j .locked⟩ :
              CState).pc j = Function.update s.pc j Pc.locked j from rfl,
            Function.update_same] at hj
        cases hj
      · rw [show (⟨s.store, some i, Function.update s.pc i .locked⟩ :
              CState).pc j = Function.update s.pc i Pc.locked j from rfl,
            Function.update_noteq hji] at hj
        exact h2 j hj
    · intro j hj
      by_cases hji : j = i
      · subst hji
        rw [show (⟨s.store, some j, Function.update s.pc j .locked⟩ :
              CState).pc j = Function.update s.pc j Pc.locked j from rfl,
            Function.update_same] at hj
        cases hj
      · rw [show (⟨s.store, some i, Function.update s.pc i .locked⟩ :
              CState).pc j = Function.update s.pc i Pc.locked j from rfl,
            Function.update_noteq hji] at hj
        exact h3 j hj
    · rintro ⟨ha, hb⟩
      by_cases h0 : (0 : Fin 2) = i
      · rw [show (⟨s.store, some i, Function.update s.pc i .locked⟩ :
              CState).pc 0 = Function.update s.pc i Pc.locked 0 from rfl,
            h0, Function.update_same] at ha
        cases ha
      · by_cases h1' : (1 : Fin 2) = i
        · rw [show (⟨s.store, some i, Function.update s.pc i .locked⟩ :
                CState).pc 1 = Function.update s.pc i Pc.locked 1 from rfl,
              h1', Function.update_same] at hb
          cases hb
        · fin_cases i
          · exact absurd rfl h0
          · exact absurd rfl h1'
  | check i hpc hlock =>
    refine ⟨?_, ?_, ?_, ?_, h5⟩
    · intro j hj
      by_cases hji : j = i
      · subst hji
        exact hlock
      · rw [show (⟨s.store, s.lock, Function.update s.pc i
              (if (Db.get s.store arch).isSome then .gotBusy else .gotIdle)⟩ :
              CState).pc j = Function.update s.pc i _ j from rfl,
            Function.update_noteq hji] at hj
        exact h1 j hj
    · intro j hj
      by_cases hji : j = i
      · subst hji
        rw [show (⟨s.store, s.lock, Function.update s.pc j
              (if (Db.get s.store arch).isSome then .gotBusy else .gotIdle)⟩ :
              CState).pc j = Function.update s.pc j _ j from rfl,
            Function.update_same] at hj
        by_cases hbusy : (Db.get s.store arch).isSome
        · rw [if_pos hbusy] at hj
          cases hj
        · exact Option.not_isSome_iff_eq_none.mp hbusy
      · rw [show (⟨s.store, s.lock, Function.update s.pc i
              (if (Db.get s.store arch).isSome then .gotBusy else .gotIdle)⟩ :
              CState).pc j = Function.update s.pc i _ j from rfl,
            Function.update_noteq hji] at hj
        exact h2 j hj
    · intro j hj
      by_cases hji : j = i
      · subst hji
        rw [show (⟨s.store, s.lock, Function.update s.pc j
              (if (Db.get s.store arch).isSome then .gotBusy else .gotIdle)⟩ :
              CState).pc j = Function.update s.pc j _ j from rfl,
            Function.update_same] at hj
        by_cases hbusy : (Db.get s.store arch).isSome
        · rw [if_pos hbusy] at hj; cases hj
        · rw [if_neg hbusy] at hj; cases hj
      · rw [show (⟨s.store, s.lock, Function.update s.pc i
              (if (Db.get s.store arch).isSome then .gotBusy else .gotIdle)⟩ :
              CState).pc j = Function.update s.pc i _ j from rfl,
            Function.update_noteq hji] at hj
        exact h3 j hj
    · rintro ⟨ha, hb⟩
      by_cases h0 : (0 : Fin 2) = i
      · rw [show (⟨s.store, s.lock, Function.update s.pc i
              (if (Db.get s.store arch).isSome then .gotBusy else .gotIdle)⟩ :
              CState).pc 0 = Function.update s.pc i _ 0 from rfl,
            h0, Function.update_same] at ha
        by_cases hbusy : (Db.get s.store arch).isSome
        · rw [if_pos hbusy] at ha; cases ha
        · rw [if_neg hbusy] at ha; cases ha
      · by_cases h1' : (1 : Fin 2) = i
        · rw [show (⟨s.store, s.lock, Function.update s.pc i
                (if (Db.get s.store arch).isSome then .gotBusy else .gotIdle)⟩ :
                CState).pc 1 = Function.update s.pc i _ 1 from rfl,
              h1', Function.update_same] at hb
          by_cases hbusy : (Db.get s.store arch).isSome
          · rw [if_pos hbusy] at hb; cases hb
          · rw [if_neg hbusy] at hb; cases hb
        · fin_cases i
          · exact absurd rfl h0
          · exact absurd rfl h1'
  | fail i hpc hlock =>
    refine ⟨?_, ?_, ?_, ?_, h5⟩
    · intro j hj
      by_cases hji : j = i
      · subst hji
        rw [show (⟨s.store, none, Function.update s.pc j (.released false)⟩ :
              CState).pc j = Function.update s.pc j _ j from rfl,
            Function.update_same] at hj
        rcases hj with h | h | h <;> cases h
      · rw [show (⟨s.store, none, Function.update s.pc i (.released false)⟩ :
              CState).pc j = Function.update s.pc i _ j from rfl,
            Function.update_noteq hji] at hj
        have := h1 j hj
        rw [hlock] at this
        exact absurd (Option.some.inj this) (fun e => hji e.symm)
    · intro j hj
      by_cases hji : j = i
      · subst hji
        rw [show (⟨s.store, none, Function.update s.pc j (.released false)⟩ :
              CState).pc j = Function.update s.pc j _ j from rfl,
            Function.update_same] at hj
        cases hj
      · rw [show (⟨s.store, none, Function.update s.pc i (.released false)⟩ :
              CState).pc j = Function.update s.pc i _ j from rfl,
            Function.update_noteq hji] at hj
        exact h2 j hj
    · intro j hj
      by_cases hji : j = i
      · subst hji
        rw [show (⟨s.store, none, Function.update s.pc j (.released false)⟩ :
              CState).pc j = Function.update s.pc j _ j from rfl,
            Function.update_same] at hj
        cases hj
      · rw [show (⟨s.store, none, Function.update s.pc i (.released false)⟩ :
              CState).pc j = Function.update s.pc i _ j from rfl,
            Function.update_noteq hji] at hj
        exact h3 j hj
    · rintro ⟨ha, hb⟩
      by_cases h0 : (0 : Fin 2) = i
      · rw [show (⟨s.store, none, Function.update s.pc i (.released false)⟩ :
              CState).pc 0 = Function.update s.pc i _ 0 from rfl,
            h0, Function.update_same] at ha
        cases ha
      · by_cases h1' : (1 : Fin 2) = i
        · rw [show (⟨s.store, none, Function.update s.pc i
                (.released false)⟩ : CState).pc 1
                = Function.update s.pc i _ 1 from rfl,
              h1', Function.update_same] at hb
          cases hb
        · fin_cases i
          · exact absurd rfl h0
          · exact absurd rfl h1'
  | createRecord i hpc hlock =>
    have hidle : Db.get s.store arch = none := h2 i hpc
    refine ⟨?_, ?_, ?_, ?_, ?_⟩
    · intro j hj
      by_cases hji : j = i
      · subst hji
        rw [show (⟨Db.set_building s.store arch (mk j), none,
              Function.update s.pc j (.released true)⟩ :
              CState).pc j = Function.update s.pc j _ j from rfl,
            Function.update_same] at hj
        rcases hj with h | h | h <;> cases h
      · rw [show (⟨Db.set_building s.store arch (mk i), none,
              Function.update s.pc i (.released true)⟩ :
              CState).pc j = Function.update s.pc i _ j from rfl,
            Function.update_noteq hji] at hj
        have := h1 j hj
        rw [hlock] at this
        exact absurd (Option.some.inj this) (fun e => hji e.symm)
    · intro j hj
      by_cases hji : j = i
      · subst hji
        rw [show (⟨Db.set_building s.store arch (mk j), none,
              Function.update s.pc j (.released true)⟩ :
              CState).pc j = Function.update s.pc j _ j from rfl,
            Function.update_same] at hj
        cases hj
      · rw [show (⟨Db.set_building s.store arch (mk i), none,
              Function.update s.pc i (.released true)⟩ :
              CState).pc j = Function.update s.pc i _ j from rfl,
            Function.update_noteq hji] at hj
        have := h1 j (Or.inr (Or.inr hj))
        rw [hlock] at this
        exact absurd (Option.some.inj this) (fun e => hji e.symm)
    · intro j hj
      by_cases hji : j = i
      · subst hji
        exact Db.get_set_building_same s.store arch (mk j)
      · rw [show (⟨Db.set_building s.store arch (mk i), none,
              Function.update s.pc i (.released true)⟩ :
              CState).pc j = Function.update s.pc i _ j from rfl,
            Function.update_noteq hji] at hj
        have := h3 j hj
        rw [hidle] at this
        cases this
    · rintro ⟨ha, hb⟩
      by_cases h0 : (0 : Fin 2) = i
      · have hji : (1 : Fin 2) ≠ i := by
          rw [← h0]; decide
        rw [show (⟨Db.set_building s.store arch (mk i), none,
              Function.update s.pc i (.released true)⟩ :
              CState).pc 1 = Function.update s.pc i _ 1 from rfl,
            Function.update_noteq hji] at hb
        have := h3 1 hb
        rw [hidle] at this
        cases this
      · have hji : (0 : Fin 2) ≠ i := h0
        rw [show (⟨Db.set_building s.store arch (mk i), none,
              Function.update s.pc i (.released true)⟩ :
              CState).pc 0 = Function.update s.pc i _ 0 from rfl,
            Function.update_noteq hji] at ha
        have := h3 0 ha
        rw [hidle] at this
        cases this
    · exact nodup_keys_kvSet s.store _ _ h5

theorem enqInv_reachable (arch : String) (mk : Fin 2 → Build) (s0 : Store)
    (hnd : (s0.map Prod.fst).Nodup) (s : CState)
    (hreach : Relation.ReflTransGen (EnqStep arch mk) (initState s0) s) :
    EnqInv arch mk s := by
  induction hreach with
  | refl => exact enqInv_init arch mk s0 hnd
  | tail _ hstep ih => exact enqInv_step arch mk hstep ih

/-- C1: enqueue's record creation behaves as an atomic check-and-set.
In every state reachable by interleaving two enqueue tasks for the same
architecture (each holding the mutex across its `get` and
`set_building`, as in the source): the two tasks never both succeed; a
task poised to create saw (and still sees) no record — it succeeds only
when none exists; after a success the registry holds that task's
record; and no key of the registry is ever bound more than once. -/
theorem enqueue_atomic_check_and_set
    (arch : String) (mk : Fin 2 → Build) (s0 : Store)
    (hnd : (s0.map Prod.fst).Nodup) (s : CState)
    (hreach : Relation.ReflTransGen (EnqStep arch mk) (initState s0) s) :
    ¬(s.pc 0 = .released true ∧ s.pc 1 = .released true)
    ∧ (∀ i, s.pc i = .gotIdle → Db.get s.store arch = none)
    ∧ (∀ i, s.pc i = .released true → Db.get s.store arch = some (mk i))
    ∧ (∀ key, (s.store.map Prod.fst).count key ≤ 1) := by
  obtain ⟨h1, h2, h3, h4, h5⟩ := enqInv_reachable arch mk s0 hnd s hreach
  exact ⟨h4, h2, h3, fun key => List.nodup_iff_count_le_one.mp h5 key⟩

theorem enqueue_atomic_check_and_set_witness :
    ¬((initState []).pc 0 = .released true
        ∧ (initState []).pc 1 = .released true)
    ∧ (∀ i, (initState []).pc i = .gotIdle →
        Db.get (initState []).store "amd64" = none)
    ∧ (∀ i, (initState []).pc i = .released true →
        Db.get (initState []).store "amd64"
          = some ((fun _ => ⟨1, "amd64", .Livekit⟩ : Fin 2 → Build) i))
    ∧ (∀ key, ((initState ([] : Store)).store.map Prod.fst).count key ≤ 1) :=
  enqueue_atomic_check_and_set "amd64" (fun _ => ⟨1, "amd64", .Livekit⟩) []
    (by simp) (initState []) Relation.ReflTransGen.refl

/-- C2: batch enqueue processes architectures one at a time in the
supplied order; an unknown architecture is rejected individually and
the loop continues; at the first architecture that already has a
record the whole operation stops, keeping records created earlier and
leaving later architectures untouched: on `[A, B, C]` with `B` busy it
creates `A`'s record, answers "Another build task is running." and
creates nothing for `C`. -/
theorem enqueue_batch_stops_at_busy
    (c : Int) (bt : BuildType) (s : Store) (u : String) (rest : List String)
    (A B C : String) (r : Build)
    (hu : u ∉ ARCHS) (hA : A ∈ ARCHS) (hB : B ∈ ARCHS)
    (hAB : A ≠ B) (hAC : A ≠ C)
    (hgA : Db.get s A = none) (hgB : Db.get s B = some r)
    (hgC : Db.get s C = none) :
    (enqueueBatch c bt s (u :: rest)
        = ((enqueueBatch c bt s rest).1,
           .unknownArch u :: (enqueueBatch c bt s rest).2))
    ∧ (enqueueBatch c bt s [A, B, C]
        = (Db.set_building s A ⟨c, A, bt⟩, [.created A, .alreadyBuilding]))
    ∧ Db.get (enqueueBatch c bt s [A, B, C]).1 A = some ⟨c, A, bt⟩
    ∧ Db.get (enqueueBatch c bt s [A, B, C]).1 B = some r
    ∧ Db.get (enqueueBatch c bt s [A, B, C]).1 C = none := by
  have hgB1 : Db.get (Db.set_building s A ⟨c, A, bt⟩) B = some r := by
    rw [Db.get_set_building_other _ _ _ _ (Ne.symm hAB)]
    exact hgB
  have main : enqueueBatch c bt s [A, B, C]
      = (Db.set_building s A ⟨c, A, bt⟩, [.created A, .alreadyBuilding]) := by
    simp [enqueueBatch, hA, hB, hgA, hgB1]
  refine ⟨by simp [enqueueBatch, hu], main, ?_, ?_, ?_⟩
  · rw [main]
    exact Db.get_set_building_same s A ⟨c, A, bt⟩
  · rw [main]
    exact hgB1
  · rw [main]
    rw [show (Db.set_building s A ⟨c, A, bt⟩,
          ([.created A, .alreadyBuilding] : List EnqEvent)).1
        = Db.set_building s A ⟨c, A, bt⟩ from rfl,
      Db.get_set_building_other _ _ _ _ (Ne.symm hAC)]
    exact hgC

theorem enqueue_batch_stops_at_busy_witness :
    (enqueueBatch 1 .Livekit (Db.set_building [] "arm64" ⟨2, "arm64", .Livekit⟩)
        ("foo" :: [])
        = ((enqueueBatch 1 .Livekit
              (Db.set_building [] "arm64" ⟨2, "arm64", .Livekit⟩) []).1,
           .unknownArch "foo" :: (enqueueBatch 1 .Livekit
              (Db.set_building [] "arm64" ⟨2, "arm64", .Livekit⟩) []).2))
    ∧ (enqueueBatch 1 .Livekit (Db.set_building [] "arm64" ⟨2, "arm64", .Livekit⟩)
          ["amd64", "arm64", "loongarch64"]
        = (Db.set_building (Db.set_building [] "arm64" ⟨2, "arm64", .Livekit⟩)
             "amd64" ⟨1, "amd64", .Livekit⟩,
           [.created "amd64", .alreadyBuilding]))
    ∧ Db.get (enqueueBatch 1 .Livekit
          (Db.set_building [] "arm64" ⟨2, "arm64", .Livekit⟩)
          ["amd64", "arm64", "loongarch64"]).1 "amd64"
        = some ⟨1, "amd64", .Livekit⟩
    ∧ Db.get (enqueueBatch 1 .Livekit
          (Db.set_building [] "arm64" ⟨2, "arm64", .Livekit⟩)
          ["amd64", "arm64", "loongarch64"]).1 "arm64"
        = some ⟨2, "arm64", .Livekit⟩
    ∧ Db.get (enqueueBatch 1 .Livekit
          (Db.set_building [] "arm64" ⟨2, "arm64", .Livekit⟩)
          ["amd64", "arm64", "loongarch64"]).1 "loongarch64" = none :=
  enqueue_batch_stops_at_busy 1 .Livekit
    (Db.set_building [] "arm64" ⟨2, "arm64", .Livekit⟩) "foo" []
    "amd64" "arm64" "loongarch64" ⟨2, "arm64", .Livekit⟩
    (by decide) (by decide) (by decide) (by decide) (by decide)
    (by decide) (by decide) (by decide)

/-- C5: a worker-facing call (`build_is_started` or `build_done`) with
a missing or wrong secret fails with the terminal `BadSecret`; the
response is the same whatever the registry contents and whatever the
expected secret; the registry is returned unchanged and (for
`build_done`) no notification is sent; the rendered HTTP response is
the constant `400 "Bad secret."`. -/
theorem bad_secret_uniform_rejection
    (hdr : Option String) (secret secret' : String) (s s' : Store)
    (arch arch' : String) (req req' : BuildDoneRequest) (rOk rOk' : Bool)
    (h1 : secretOk hdr secret = false)
    (h2 : secretOk hdr secret' = false) :
    build_is_started hdr secret s arch = (.error .BadSecret, s)
    ∧ build_done rOk hdr secret s req = (.error .BadSecret, s, [])
    ∧ (build_is_started hdr secret s arch).1
        = (build_is_started hdr secret' s' arch').1
    ∧ (build_done rOk hdr secret s req).1
        = (build_done rOk' hdr secret' s' req').1
    ∧ intoResponse .BadSecret = (400, "Bad secret.") := by
  refine ⟨?_, ?_, ?_, ?_, rfl⟩ <;>
    simp [build_is_started, build_done, h1, h2]

theorem bad_secret_uniform_rejection_witness :
    build_is_started (some "wrong") "hunter2" [] "amd64"
        = (.error .BadSecret, [])
    ∧ build_done true (some "wrong") "hunter2" []
          ⟨7, "amd64", "livekit", none, false, none, true, "d"⟩
        = (.error .BadSecret, [], [])
    ∧ (build_is_started (some "wrong") "hunter2" [] "amd64").1
        = (build_is_started (some "wrong") "secret2"
            (Db.set_building [] "amd64" ⟨1, "amd64", .Livekit⟩) "arm64").1
    ∧ (build_done true (some "wrong") "hunter2" []
          ⟨7, "amd64", "livekit", none, false, none, true, "d"⟩).1
        = (build_done false (some "wrong") "secret2"
            (Db.set_building [] "amd64" ⟨1, "amd64", .Livekit⟩)
            ⟨8, "arm64", "release", some ["base"], true, some "u", false, "e"⟩).1
    ∧ intoResponse .BadSecret = (400, "Bad secret.") :=
  bad_secret_uniform_rejection (some "wrong") "hunter2" "secret2" []
    (Db.set_building [] "amd64" ⟨1, "amd64", .Livekit⟩) "amd64" "arm64"
    ⟨7, "amd64", "livekit", none, false, none, true, "d"⟩
    ⟨8, "arm64", "release", some ["base"], true, some "u", false, "e"⟩
    true false (by decide) (by decide)

/-- C6: `build_done` on an architecture with no outstanding record is
not an error: it returns `Ok`, the completion notification addressed
to the requester is still sent, and the clear is idempotent — clearing
an absent key, or clearing twice, never errors and leaves the registry
with no record for that key. -/
theorem report_done_absent_not_error
    (hdr : Option String) (secret : String) (s : Store)
    (req : BuildDoneRequest)
    (hsec : secretOk hdr secret = true)
    (habsent : Db.get s req.arch = none) :
    build_done true hdr secret s req
      = (.ok (), Db.set_build_done s req.arch, [(req.id, doneMessage req)])
    ∧ Db.get (Db.set_build_done s req.arch) req.arch = none
    ∧ Db.set_build_done (Db.set_build_done s req.arch) req.arch
        = Db.set_build_done s req.arch := by
  refine ⟨by simp [build_done, hsec], Db.get_set_build_done_same s req.arch, ?_⟩
  unfold Db.set_build_done
  exact kvDel_kvDel s _

theorem report_done_absent_not_error_witness :
    build_done true (some "hunter2") "hunter2" []
        ⟨7, "amd64", "livekit", none, false, none, true, "d"⟩
      = (.ok (), Db.set_build_done [] "amd64",
         [(7, doneMessage ⟨7, "amd64", "livekit", none, false, none, true, "d"⟩)])
    ∧ Db.get (Db.set_build_done [] "amd64") "amd64" = none
    ∧ Db.set_build_done (Db.set_build_done [] "amd64") "amd64"
        = Db.set_build_done [] "amd64" :=
  report_done_absent_not_error (some "hunter2") "hunter2" []
    ⟨7, "amd64", "livekit", none, false, none, true, "d"⟩
    (by decide) (by decide)

/-- C10: with a valid secret, `build_done` emits the completion
notification only after the registry clear succeeded: when the clear
fails the handler returns the `Redis` error, the store is unchanged
and no notification is sent; whenever a notification was sent the
clear had succeeded and the slot is empty. -/
theorem notification_only_after_clear
    (redisOk : Bool) (hdr : Option String) (secret : String) (s : Store)
    (req : BuildDoneRequest)
    (hsec : secretOk hdr secret = true) :
    (redisOk = false →
       build_done redisOk hdr secret s req = (.error .Redis, s, []))
    ∧ ((build_done redisOk hdr secret s req).2.2 ≠ [] →
         redisOk = true
         ∧ Db.get (build_done redisOk hdr secret s req).2.1 req.arch = none
         ∧ (build_done redisOk hdr secret s req).2.2
             = [(req.id, doneMessage req)]) := by
  constructor
  · intro h
    subst h
    simp [build_done, hsec]
  · intro hne
    cases redisOk with
    | false => simp [build_done, hsec] at hne
    | true =>
      refine ⟨rfl, ?_, ?_⟩ <;>
        simp [build_done, hsec, Db.get_set_build_done_same]

/- Status reporting (bot.rs `Status` arm). -/

theorem foldl_statusLine_append (l : List Build) (acc : String) :
    l.foldl (fun res b => res ++ statusLine b) acc
      = acc ++ (l.map statusLine).foldr (· ++ ·) "" := by
  induction l generalizing acc with
  | nil => simp [String.append_empty]
  | cons b bs ih =>
    simp only [List.foldl_cons, List.map_cons, List.foldr_cons, ih,
      String.append_assoc]

theorem collectBuilds_length :
    ∀ (l : List (String × Json)) (bs : List Build),
      collectBuilds l = some bs → bs.length = l.length := by
  intro l
  induction l with
  | nil =>
    intro bs h
    cases h
    rfl
  | cons p rest ih =>
    intro bs h
    unfold collectBuilds at h
    cases hp : Build.fromJson p.2 with
    | none =>
      rw [hp] at h
      cases h
    | some b =>
      rw [hp] at h
      cases hr : collectBuilds rest with
      | none =>
        rw [hr] at h
        cases h
      | some tl =>
        rw [hr] at h
        have hb := Option.some.inj h
        subst hb
        simp [ih tl hr]

/-- C3 counterexample: with exactly one record (amd64 building
livekit) in the registry, the status output is the single line
`"amd64: building livekit\n"`; it contains no entry for the known
architecture arm64 and no "idle" entry at all, contradicting the claim
that every known architecture is reported as building or idle. -/
theorem status_no_idle_counterexample :
    Db.running_worker (Db.set_building [] "amd64" ⟨1, "amd64", .Livekit⟩)
        = some [⟨1, "amd64", .Livekit⟩]
    ∧ statusOutput [⟨1, "amd64", .Livekit⟩] = "amd64: building livekit\n"
    ∧ "arm64" ∈ ARCHS
    ∧ containsSub (statusOutput [⟨1, "amd64", .Livekit⟩]) "arm64" = false
    ∧ containsSub (statusOutput [⟨1, "amd64", .Livekit⟩]) "idle" = false := by
  exact ⟨by decide, by decide, by decide, by decide, by decide⟩

/-- C3 (amended): the status report contains exactly one
`"{arch}: building {kind}"` line per record in the registry — the
output is the concatenation of `statusLine` over `running_worker`'s
records, and its line count equals the number of `shipit:*` keys;
architectures with no record are omitted entirely (no "idle"
entries). -/
theorem status_one_line_per_record
    (s : Store) (builds : List Build)
    (h : Db.running_worker s = some builds) :
    statusOutput builds = (builds.map statusLine).foldr (· ++ ·) ""
    ∧ builds.length
        = (s.filter (fun p => p.1.take 7 = "shipit:")).length := by
  constructor
  · exact foldl_statusLine_append builds ""
  · unfold Db.running_worker at h
    exact collectBuilds_length _ _ h

theorem status_one_line_per_record_witness :
    statusOutput [⟨1, "amd64", .Livekit⟩]
        = ([⟨1, "amd64", .Livekit⟩].map statusLine).foldr (· ++ ·) ""
    ∧ ([⟨1, "amd64", .Livekit⟩] : List Build).length
        = ((Db.set_building [] "amd64" ⟨1, "amd64", .Livekit⟩).filter
            (fun p => p.1.take 7 = "shipit:")).length :=
  status_one_line_per_record
    (Db.set_building [] "amd64" ⟨1, "amd64", .Livekit⟩)
    [⟨1, "amd64", .Livekit⟩] (by decide)

/- Release variant handling (bot.rs `Release` arm). -/

theorem enqueueBatch_created_record (c : Int) (bt : BuildType) :
    ∀ (archs : List String) (s : Store) (a : String) (b : Build),
      Db.get (enqueueBatch c bt s archs).1 a = some b →
      Db.get s a = some b ∨ b = ⟨c, a, bt⟩ := by
  intro archs
  induction archs with
  | nil =>
    intro s a b h
    exact .inl h
  | cons x rest ih =>
    intro s a b h
    by_cases hx : x ∉ ARCHS
    · rw [show enqueueBatch c bt s (x :: rest)
          = ((enqueueBatch c bt s rest).1,
             .unknownArch x :: (enqueueBatch c bt s rest).2) by
        simp [enqueueBatch, hx]] at h
      exact ih s a b h
    · by_cases hbusy : (Db.get s x).isSome
      · rw [show enqueueBatch c bt s (x :: rest)
            = (s, [.alreadyBuilding]) by
          simp [enqueueBatch, hx, hbusy]] at h
        exact .inl h
      · rw [show enqueueBatch c bt s (x :: rest)
            = ((enqueueBatch c bt (Db.set_building s x ⟨c, x, bt⟩) rest).1,
               .created x ::
                 (enqueueBatch c bt (Db.set_building s x ⟨c, x, bt⟩) rest).2) by
          simp [enqueueBatch, hx, hbusy]] at h
        rcases ih (Db.set_building s x ⟨c, x, bt⟩) a b h with h' | h'
        · by_cases hax : a = x
          · subst hax
            rw [Db.get_set_building_same] at h'
            exact .inr (Option.some.inj h').symm
          · rw [Db.get_set_building_other _ _ _ _ hax] at h'
            exact .inl h'
        · exact .inr h'

/-- C4 counterexample: `/release ;amd64` parses an *empty* variant
list (nothing precedes the `;`) and the release command stores a
`Release` record whose variants list is empty — the registry can hold
a `Release` record with an empty variants list. -/
theorem release_empty_variants_counterexample :
    parseReleaseArgs ";amd64" = ([], ["amd64"])
    ∧ Db.get (releaseCommand 1 ";amd64" []).1 "amd64"
        = some ⟨1, "amd64", .Release []⟩ := by
  exact ⟨by decide, by decide⟩

/-- C4 (amended): every `Release` record the release command stores
carries exactly the parsed variant list, in the order the variants
were supplied — but that list may be empty (there is no
non-emptiness check). -/
theorem release_record_variants
    (c : Int) (args : String) (s : Store) (a : String) (b : Build)
    (h : Db.get (releaseCommand c args s).1 a = some b) :
    Db.get s a = some b
    ∨ b = ⟨c, a, .Release (parseReleaseArgs args).1⟩ := by
  unfold releaseCommand at h
  exact enqueueBatch_created_record c (.Release (parseReleaseArgs args).1)
    (parseReleaseArgs args).2 s a b h

theorem release_record_variants_witness :
    Db.get ([] : Store) "amd64"
        = some ⟨1, "amd64", .Release ["base", "desktop"]⟩
    ∨ (⟨1, "amd64", .Release ["base", "desktop"]⟩ : Build)
        = ⟨1, "amd64",
            .Release (parseReleaseArgs "base desktop;amd64").1⟩ :=
  release_record_variants 1 "base desktop;amd64" [] "amd64"
    ⟨1, "amd64", .Release ["base", "desktop"]⟩ (by decide)

/- Facts about the retry loop (worker main.rs). -/

theorem range_succ_pow (i n : Nat) :
    (List.range (n + 1)).map (fun t => 2 ^ (i + t))
      = 2 ^ i :: (List.range n).map (fun t => 2 ^ (i + 1 + t)) := by
  rw [List.range_succ_eq_map, List.map_cons, List.map_map]
  congr 1
  apply List.map_congr_left
  intro a _
  simp only [Function.comp_apply]
  congr 1
  omega

theorem retryLoop_all_fail (f : Nat → Except Unit Output) (cmd : String)
    (args : List String) :
    ∀ (fuel i : Nat) (logs : List String),
      (∀ j, i ≤ j → j < i + fuel → attemptSucceeded (f j) = false) →
      (retryLoop f cmd args i fuel logs).delivered = false
      ∧ (retryLoop f cmd args i fuel logs).attempts = fuel
      ∧ (retryLoop f cmd args i fuel logs).sleeps
          = (List.range fuel).map (fun t => 2 ^ (i + t)) := by
  intro fuel
  induction fuel with
  | zero =>
    intro i logs _
    exact ⟨rfl, rfl, rfl⟩
  | succ n ih =>
    intro i logs h
    have hfi : attemptSucceeded (f i) = false := h i le_rfl (by omega)
    have hrec : ∀ logs', (retryLoop f cmd args (i + 1) n logs').delivered = false
        ∧ (retryLoop f cmd args (i + 1) n logs').attempts = n
        ∧ (retryLoop f cmd args (i + 1) n logs').sleeps
            = (List.range n).map (fun t => 2 ^ (i + 1 + t)) :=
      fun logs' => ih (i + 1) logs' (fun j h1 h2 => h j (by omega) (by omega))
    cases hf : f i with
    | error e =>
      obtain ⟨d, a, sl⟩ := hrec (logs ++ [runMsg cmd args])
      refine ⟨?_, ?_, ?_⟩ <;>
        simp [retryLoop, get_output_logged, hf, d, a, sl, range_succ_pow]
    | ok o =>
      have ho : o.statusSuccess = false := by
        rw [hf] at hfi
        simpa [attemptSucceeded] using hfi
      obtain ⟨d, a, sl⟩ := hrec (logs ++ [runMsg cmd args,
        finishMsg cmd args false, "STDOUT:", o.stdout,
        "STDERR:", o.stderr])
      refine ⟨?_, ?_, ?_⟩ <;>
        simp [retryLoop, get_output_logged, hf, ho, d, a, sl, range_succ_pow]

theorem retryLoop_first_success (f : Nat → Except Unit Output)
    (cmd : String) (args : List String) :
    ∀ (fuel i k : Nat) (logs : List String),
      i ≤ k → k < i + fuel →
      attemptSucceeded (f k) = true →
      (∀ j, i ≤ j → j < k → attemptSucceeded (f j) = false) →
      (retryLoop f cmd args i fuel logs).delivered = true
      ∧ (retryLoop f cmd args i fuel logs).attempts = k + 1 - i
      ∧ (retryLoop f cmd args i fuel logs).sleeps
          = (List.range (k - i)).map (fun t => 2 ^ (i + t)) := by
  intro fuel
  induction fuel with
  | zero =>
    intro i k logs hik hk _ _
    omega
  | succ n ih =>
    intro i k logs hik hk hsk hfail
    by_cases hki : k = i
    · subst hki
      cases hf : f k with
      | error e =>
        rw [hf] at hsk
        simp [attemptSucceeded] at hsk
      | ok o =>
        have ho : o.statusSuccess = true := by
          rw [hf] at hsk
          simpa [attemptSucceeded] using hsk
        refine ⟨?_, ?_, ?_⟩ <;>
          simp [retryLoop, get_output_logged, hf, ho]
    · have hik' : i + 1 ≤ k := by omega
      have hfi : attemptSucceeded (f i) = false := hfail i le_rfl (by omega)
      have hrec : ∀ logs', (retryLoop f cmd args (i + 1) n logs').delivered = true
          ∧ (retryLoop f cmd args (i + 1) n logs').attempts = k + 1 - (i + 1)
          ∧ (retryLoop f cmd args (i + 1) n logs').sleeps
              = (List.range (k - (i + 1))).map (fun t => 2 ^ (i + 1 + t)) :=
        fun logs' => ih (i + 1) k logs' hik' (by omega) hsk
          (fun j h1 h2 => hfail j (by omega) h2)
      have hsl : (List.range (k - i)).map (fun t => 2 ^ (i + t))
          = 2 ^ i :: (List.range (k - (i + 1))).map (fun t => 2 ^ (i + 1 + t)) := by
        have hn : k - i = (k - (i + 1)) + 1 := by omega
        rw [hn, range_succ_pow]
      have ha' : (k + 1 - (i + 1)) + 1 = k + 1 - i := by omega
      cases hf : f i with
      | error e =>
        obtain ⟨d, a, sl⟩ := hrec (logs ++ [runMsg cmd args])
        refine ⟨?_, ?_, ?_⟩
        · simp [retryLoop, get_output_logged, hf, d]
        · simp [retryLoop, get_output_logged, hf, a, ha']
          omega
        · simp [retryLoop, get_output_logged, hf, sl, hsl]
      | ok o =>
        have ho : o.statusSuccess = false := by
          rw [hf] at hfi
          simpa [attemptSucceeded] using hfi
        obtain ⟨d, a, sl⟩ := hrec (logs ++ [runMsg cmd args,
          finishMsg cmd args false, "STDOUT:", o.stdout,
          "STDERR:", o.stderr])
        refine ⟨?_, ?_, ?_⟩
        · simp [retryLoop, get_output_logged, hf, ho, d]
        · simp [retryLoop, get_output_logged, hf, ho, a, ha']
          omega
        · simp [retryLoop, get_output_logged, hf, ho, sl, hsl]

/-- C7: on a destination that always fails, `run_logged_with_retry`
performs exactly 5 attempts, sleeps `2^i` seconds after attempt `i`
(sleeps `[1, 2, 4, 8, 16]`, so at least `1+2+4+8 = 15` seconds of
backoff accumulate before the 5th attempt), then returns `false`
without raising; on the first successful attempt (`k` 0-indexed) it
returns `true` immediately, after `k + 1` attempts and only the sleeps
that preceded the successful attempt. -/
theorem run_logged_with_retry_spec
    (f : Nat → Except Unit Output) (cmd : String) (args : List String)
    (logs : List String) :
    ((∀ i, i < 5 → attemptSucceeded (f i) = false) →
       (run_logged_with_retry f cmd args logs).delivered = false
       ∧ (run_logged_with_retry f cmd args logs).attempts = 5
       ∧ (run_logged_with_retry f cmd args logs).sleeps = [1, 2, 4, 8, 16]
       ∧ ((run_logged_with_retry f cmd args logs).sleeps.take 4).sum = 15)
    ∧ (∀ k, k < 5 → attemptSucceeded (f k) = true →
        (∀ j, j < k → attemptSucceeded (f j) = false) →
        (run_logged_with_retry f cmd args logs).delivered = true
        ∧ (run_logged_with_retry f cmd args logs).attempts = k + 1
        ∧ (run_logged_with_retry f cmd args logs).sleeps
            = (List.range k).map (fun t => 2 ^ t)) := by
  constructor
  · intro h
    obtain ⟨d, a, sl⟩ := retryLoop_all_fail f cmd args 5 0 logs
      (fun j _ h2 => h j (by omega))
    have sl' : (run_logged_with_retry f cmd args logs).sleeps
        = [1, 2, 4, 8, 16] := by
      unfold run_logged_with_retry
      rw [sl]
      rfl
    exact ⟨d, a, sl', by rw [sl']; rfl⟩
  · intro k hk hsk hfail
    obtain ⟨d, a, sl⟩ := retryLoop_first_success f cmd args 5 0 k logs
      (by omega) (by omega) hsk (fun j _ h2 => hfail j h2)
    refine ⟨d, ?_, ?_⟩
    · unfold run_logged_with_retry
      rw [a]
      omega
    · unfold run_logged_with_retry
      rw [sl]
      simp

theorem run_logged_with_retry_spec_witness :
    ((run_logged_with_retry (fun _ => .ok ⟨false, "o", "e"⟩)
        "scp" ["x"] []).delivered = false
     ∧ (run_logged_with_retry (fun _ => .ok ⟨false, "o", "e"⟩)
          "scp" ["x"] []).attempts = 5
     ∧ (run_logged_with_retry (fun _ => .ok ⟨false, "o", "e"⟩)
          "scp" ["x"] []).sleeps = [1, 2, 4, 8, 16]
     ∧ ((run_logged_with_retry (fun _ => .ok ⟨false, "o", "e"⟩)
          "scp" ["x"] []).sleeps.take 4).sum = 15)
    ∧ ((run_logged_with_retry (fun _ => .ok ⟨true, "o", "e"⟩)
          "scp" ["x"] []).delivered = true
     ∧ (run_logged_with_retry (fun _ => .ok ⟨true, "o", "e"⟩)
          "scp" ["x"] []).attempts = 0 + 1
     ∧ (run_logged_with_retry (fun _ => .ok ⟨true, "o", "e"⟩)
          "scp" ["x"] []).sleeps = (List.range 0).map (fun t => 2 ^ t)) :=
  ⟨(run_logged_with_retry_spec (fun _ => .ok ⟨false, "o", "e"⟩)
      "scp" ["x"] []).1 (fun _ _ => rfl),
   (run_logged_with_retry_spec (fun _ => .ok ⟨true, "o", "e"⟩)
      "scp" ["x"] []).2 0 (by omega) rfl
      (fun j hj => absurd hj (by omega))⟩

theorem retryLoop_logs_extend (f : Nat → Except Unit Output)
    (cmd : String) (args : List String) :
    ∀ (fuel i : Nat) (logs : List String),
      ∃ tl, (retryLoop f cmd args i fuel logs).logs = logs ++ tl := by
  intro fuel
  induction fuel with
  | zero =>
    intro i logs
    exact ⟨[], by simp [retryLoop]⟩
  | succ n ih =>
    intro i logs
    cases hf : f i with
    | error e =>
      obtain ⟨tl, htl⟩ := ih (i + 1) (logs ++ [runMsg cmd args])
      refine ⟨[runMsg cmd args] ++ tl, ?_⟩
      simp [retryLoop, get_output_logged, hf, htl]
    | ok o =>
      by_cases ho : o.statusSuccess = true
      · refine ⟨[runMsg cmd args, finishMsg cmd args true, "STDOUT:",
          o.stdout, "STDERR:", o.stderr], ?_⟩
        simp [retryLoop, get_output_logged, hf, ho]
      · have ho' : o.statusSuccess = false := by simpa using ho
        obtain ⟨tl, htl⟩ := ih (i + 1) (logs ++ [runMsg cmd args,
          finishMsg cmd args false, "STDOUT:", o.stdout, "STDERR:", o.stderr])
        refine ⟨[runMsg cmd args, finishMsg cmd args false, "STDOUT:",
          o.stdout, "STDERR:", o.stderr] ++ tl, ?_⟩
        simp [retryLoop, get_output_logged, hf, ho', htl]

theorem build_release_executor_failure
    (env : ReleaseEnv) (arch host key : String) (variants : List String)
    (p g : Output)
    (hclone : env.cloneNeeded = false)
    (hpull : env.gitPull = .ok p)
    (hgen : env.generateReleases = .ok g)
    (hexec : g.statusSuccess = false) :
    ∃ logs push_success,
      build_release env arch host key variants
        = .ok (logs, false, push_success)
      ∧ g.stdout ∈ logs ∧ g.stderr ∈ logs := by
  have heq : build_release env arch host key variants
      = .ok ((run_logged_with_retry env.scpImage "scp"
          ["-i", key, "-r", "os-" ++ arch,
           "maintainers@" ++ host ++ ":/lookaside/private/aosc-os"]
          [runMsg "git" ["pull"], finishMsg "git" ["pull"] p.statusSuccess,
           "STDOUT:", p.stdout, "STDERR:", p.stderr,
           runMsg "bash" ("./contrib/generate-releases.sh" :: variants),
           finishMsg "bash" ("./contrib/generate-releases.sh" :: variants) false,
           "STDOUT:", g.stdout, "STDERR:", g.stderr]).logs,
        false,
        (run_logged_with_retry env.scpImage "scp"
          ["-i", key, "-r", "os-" ++ arch,
           "maintainers@" ++ host ++ ":/lookaside/private/aosc-os"]
          [runMsg "git" ["pull"], finishMsg "git" ["pull"] p.statusSuccess,
           "STDOUT:", p.stdout, "STDERR:", p.stderr,
           runMsg "bash" ("./contrib/generate-releases.sh" :: variants),
           finishMsg "bash" ("./contrib/generate-releases.sh" :: variants) false,
           "STDOUT:", g.stdout, "STDERR:", g.stderr]).delivered) := by
    simp [build_release, hclone, hpull, hgen, hexec, get_output_logged]
  obtain ⟨tl, htl⟩ := retryLoop_logs_extend env.scpImage "scp"
    ["-i", key, "-r", "os-" ++ arch,
     "maintainers@" ++ host ++ ":/lookaside/private/aosc-os"] 5 0
    [runMsg "git" ["pull"], finishMsg "git" ["pull"] p.statusSuccess,
     "STDOUT:", p.stdout, "STDERR:", p.stderr,
     runMsg "bash" ("./contrib/generate-releases.sh" :: variants),
     finishMsg "bash" ("./contrib/generate-releases.sh" :: variants) false,
     "STDOUT:", g.stdout, "STDERR:", g.stderr]
  refine ⟨_, _, heq, ?_, ?_⟩
  · rw [show run_logged_with_retry env.scpImage "scp"
        ["-i", key, "-r", "os-" ++ arch,
         "maintainers@" ++ host ++ ":/lookaside/private/aosc-os"]
        [runMsg "git" ["pull"], finishMsg "git" ["pull"] p.statusSuccess,
         "STDOUT:", p.stdout, "STDERR:", p.stderr,
         runMsg "bash" ("./contrib/generate-releases.sh" :: variants),
         finishMsg "bash" ("./contrib/generate-releases.sh" :: variants) false,
         "STDOUT:", g.stdout, "STDERR:", g.stderr]
        = retryLoop env.scpImage "scp"
            ["-i", key, "-r", "os-" ++ arch,
             "maintainers@" ++ host ++ ":/lookaside/private/aosc-os"] 0 5
            [runMsg "git" ["pull"], finishMsg "git" ["pull"] p.statusSuccess,
             "STDOUT:", p.stdout, "STDERR:", p.stderr,
             runMsg "bash" ("./contrib/generate-releases.sh" :: variants),
             finishMsg "bash" ("./contrib/generate-releases.sh" :: variants)
               false,
             "STDOUT:", g.stdout, "STDERR:", g.stderr] from rfl, htl]
    simp
  · rw [show run_logged_with_retry env.scpImage "scp"
        ["-i", key, "-r", "os-" ++ arch,
         "maintainers@" ++ host ++ ":/lookaside/private/aosc-os"]
        [runMsg "git" ["pull"], finishMsg "git" ["pull"] p.statusSuccess,
         "STDOUT:", p.stdout, "STDERR:", p.stderr,
         runMsg "bash" ("./contrib/generate-releases.sh" :: variants),
         finishMsg "bash" ("./contrib/generate-releases.sh" :: variants) false,
         "STDOUT:", g.stdout, "STDERR:", g.stderr]
        = retryLoop env.scpImage "scp"
            ["-i", key, "-r", "os-" ++ arch,
             "maintainers@" ++ host ++ ":/lookaside/private/aosc-os"] 0 5
            [runMsg "git" ["pull"], finishMsg "git" ["pull"] p.statusSuccess,
             "STDOUT:", p.stdout, "STDERR:", p.stderr,
             runMsg "bash" ("./contrib/generate-releases.sh" :: variants),
             finishMsg "bash" ("./contrib/generate-releases.sh" :: variants)
               false,
             "STDOUT:", g.stdout, "STDERR:", g.stderr] from rfl, htl]
    simp

/-- C8: when the build executor exits non-zero the worker does not
treat it as a crash: the iteration still returns `Ok`, proceeds to
reporting, writes the log file — whose contents include the executor's
captured stdout and stderr — and posts `/done` with
`has_error = true`. -/
theorem worker_reports_executor_failure
    (env : WorkerEnv) (arch hostName timeStamp host key : String)
    (build : Build) (variants : List String) (p g : Output)
    (hpoll : env.pollResult = .Working build)
    (hbt : build.build_type = .Release variants)
    (hclone : env.release.cloneNeeded = false)
    (hpull : env.release.gitPull = .ok p)
    (hgen : env.release.generateReleases = .ok g)
    (hexec : g.statusSuccess = false)
    (hw : env.fsWriteOk = true) (hrm : env.fsRemoveOk = true)
    (hcp : env.fsCopyOk = true) (hpost : env.postOk = true) :
    ∃ fname logs req,
      worker env arch hostName timeStamp host key
        = .ok ⟨some (fname, logs), some req⟩
      ∧ req.has_error = true
      ∧ req.id = build.id
      ∧ req.build_type = ⟨"release", some variants⟩
      ∧ g.stdout ∈ logs ∧ g.stderr ∈ logs := by
  obtain ⟨logs, push, hbr, hout, herr⟩ :=
    build_release_executor_failure env.release arch host key variants p g
      hclone hpull hgen hexec
  refine ⟨"shipit-" ++ arch ++ "-" ++ hostName ++ "-" ++ timeStamp ++ ".txt",
    logs,
    ⟨build.id, build.arch, BuildTypeRequest.ofBuildType build.build_type,
     true,
     if (run_logged_with_retry env.scpLog "scp"
          ["-i", key, "./log", "maintainers@" ++ host ++ ":/buildit/logs"]
          []).delivered
     then some ("https://buildit.aosc.io/logs/" ++
            ("shipit-" ++ arch ++ "-" ++ hostName ++ "-" ++ timeStamp
              ++ ".txt"))
     else none, push⟩, ?_, rfl, rfl, by rw [hbt]; rfl, hout, herr⟩
  unfold worker
  simp [hpoll, hbt, hbr, hw, hrm, hcp, hpost]

theorem worker_reports_executor_failure_witness :
    ∃ fname logs req,
      worker workerEnvEx "amd64" "h" "t" "host" "key"
        = .ok ⟨some (fname, logs), some req⟩
      ∧ req.has_error = true
      ∧ req.id = (5 : Int)
      ∧ req.build_type = ⟨"release", some ["base"]⟩
      ∧ "go" ∈ logs ∧ "ge" ∈ logs :=
  worker_reports_executor_failure workerEnvEx "amd64" "h" "t" "host" "key"
    ⟨5, "amd64", .Release ["base"]⟩ ["base"] ⟨true, "po", "pe"⟩
    ⟨false, "go", "ge"⟩ rfl rfl rfl rfl rfl rfl rfl rfl rfl rfl

theorem notification_only_after_clear_witness :
    (false = false →
       build_done false (some "hunter2") "hunter2" []
           ⟨7, "amd64", "livekit", none, false, none, true, "d"⟩
         = (.error .Redis, [], []))
    ∧ ((build_done false (some "hunter2") "hunter2" []
           ⟨7, "amd64", "livekit", none, false, none, true, "d"⟩).2.2 ≠ [] →
         false = true
         ∧ Db.get (build_done false (some "hunter2") "hunter2" []
             ⟨7, "amd64", "livekit", none, false, none, true, "d"⟩).2.1 "amd64"
             = none
         ∧ (build_done false (some "hunter2") "hunter2" []
             ⟨7, "amd64", "livekit", none, false, none, true, "d"⟩).2.2
             = [(7, doneMessage
                  ⟨7, "amd64", "livekit", none, false, none, true, "d"⟩)]) :=
  notification_only_after_clear false (some "hunter2") "hunter2" []
    ⟨7, "amd64", "livekit", none, false, none, true, "d"⟩ (by decide)


/-- C9: a record written by `set_building` and read back by `get` for
the same architecture is returned unchanged: same requester id, same
architecture, same build kind, and (for `Release`) the same variant
list in the same order — record equality covers all four. -/
theorem set_building_get_roundtrip (s : Store) (arch : String) (b : Build) :
    Db.get (Db.set_building s arch b) arch = some b := by
  simp [Db.get, Db.set_building, kvGet_kvSet_same, build_fromJson_roundtrip]

end Shipit
